import Mathlib

/-!
# Verification of the `Snackbar` component (`src/components/Snackbar.js`)

Shallow embedding of the Snackbar React component as an event-driven state
machine.  The component owns:

* an `Animated.Value` (`this.state.scale`), modelled by `scaleValue` together
  with an `animInFlight` flag for a running `Animated.timing` towards `1`;
* a timeout handle (`this._hideTimeout`), modelled by `hideTimeout`.

The host JavaScript runtime's set of pending timers is modelled explicitly by
the `pending` list of timer ids (`setTimeout` pushes a fresh id, `clearTimeout`
erases the held id), so that "at most one timer is pending" is a genuine
invariant rather than a fact of the types.

Events delivered by the host (re-renders with new props, animation-completion
callbacks, timer firings, button presses, unmount) drive the `step` function,
which mirrors `componentDidUpdate`, `_toggle`, `_show`, `_hide`,
`componentWillUnmount` and the action-button `onPress` closure from the
source.  Each step also emits a list of observable `Effect`s (calls into the
animation system, the timer API and the externally supplied callbacks), in
the order the source performs them.
-/

namespace Snackbar

/-- `const SNACKBAR_ANIMATION_DURATION = 200;` -/
def SNACKBAR_ANIMATION_DURATION : Nat := 200

/-- The `duration` prop: an arbitrary finite number of milliseconds, or the
`Infinity` sentinel (`Snackbar.DURATION_INDEFINITE`). -/
inductive Duration where
  | finite : Nat → Duration
  | indefinite : Duration
deriving DecidableEq, Repr

/-- `static DURATION_SHORT = 4000;` -/
def DURATION_SHORT : Duration := .finite 4000

/-- `static DURATION_LONG = 6000;` -/
def DURATION_LONG : Duration := .finite 6000

/-- `static DURATION_INDEFINITE = Infinity;` -/
def DURATION_INDEFINITE : Duration := .indefinite

/-- Observable side effects of one step, listed in the order the source code
performs them.  The externally supplied callbacks take no arguments, hence
the constructors for them carry no data. -/
inductive Effect where
  | clearTimer : Option Nat → Effect
  | startShowAnim : ℚ → ℚ → Nat → Effect
  | setScaleValue : ℚ → Effect
  | scheduleTimer : Nat → Nat → Effect
  | callOnDismiss : Effect
  | callActionOnPress : Effect
deriving DecidableEq, Repr

/-- Does this effect schedule an auto-dismiss timer (`setTimeout`)? -/
def Effect.isSchedule : Effect → Bool
  | .scheduleTimer _ _ => true
  | _ => false

/-- Does this effect start a show animation (`Animated.timing(..).start`)? -/
def Effect.isStartAnim : Effect → Bool
  | .startShowAnim _ _ _ => true
  | _ => false

/-- Component instance state plus the host runtime's pending-timer set.

* `mounted` — the instance is mounted in the host UI tree.
* `visible`, `duration` — the current props (as of the latest render).
* `scaleValue` — current value of the `this.state.scale` animated value.
* `animInFlight` — an `Animated.timing(scale, {toValue: 1, duration: 200})`
  is running; its completion callback has not fired yet.
* `hideTimeout` — the handle stored in `this._hideTimeout` (possibly stale:
  the source never clears the field after the timer fires).
* `pending` — ids of timers currently pending in the host runtime.
* `nextId` — fresh-id counter for `setTimeout`.
* `timerDismissCount` — number of times `onDismiss` has been invoked by the
  auto-dismiss timer. -/
structure CompState where
  mounted : Bool
  visible : Bool
  duration : Duration
  scaleValue : ℚ
  animInFlight : Bool
  hideTimeout : Option Nat
  pending : List Nat
  nextId : Nat
  timerDismissCount : Nat
deriving DecidableEq, Repr

/-- `clearTimeout(this._hideTimeout)`: remove the held handle from the host's
pending set (a no-op on an unset or stale handle, as in JavaScript). -/
def clearTimeoutJs (s : CompState) : CompState :=
  match s.hideTimeout with
  | none => s
  | some h => { s with pending := s.pending.erase h }

/-- `_show`: `clearTimeout(this._hideTimeout)` then
`Animated.timing(this.state.scale, {toValue: 1, duration: 200}).start(cb)`.
The completion callback `cb` is modelled by `showAnimationCallback`, run when
the `animComplete` event fires. -/
def doShow (s : CompState) : CompState × List Effect :=
  let s1 := clearTimeoutJs s
  ({ s1 with animInFlight := true },
   [Effect.clearTimer s.hideTimeout,
    Effect.startShowAnim s.scaleValue 1 SNACKBAR_ANIMATION_DURATION])

/-- `_hide`: `clearTimeout(this._hideTimeout)` then
`this.state.scale.setValue(0)`.  `setValue` stops any running animation on
the value. -/
def doHide (s : CompState) : CompState × List Effect :=
  let s1 := clearTimeoutJs s
  ({ s1 with scaleValue := 0, animInFlight := false },
   [Effect.clearTimer s.hideTimeout, Effect.setScaleValue 0])

/-- `_toggle`: `if (this.props.visible) { this._show(); } else { this._hide(); }` -/
def doToggle (s : CompState) : CompState × List Effect :=
  if s.visible then doShow s else doHide s

/-- The completion callback passed to `.start` in `_show`:
`if (duration !== Snackbar.DURATION_INDEFINITE) { this._hideTimeout = setTimeout(this.props.onDismiss, duration); }`.
It reads `this.props.duration` at callback time. -/
def showAnimationCallback (s : CompState) : CompState × List Effect :=
  match s.duration with
  | .indefinite => (s, [])
  | .finite d =>
      ({ s with hideTimeout := some s.nextId,
                pending := s.nextId :: s.pending,
                nextId := s.nextId + 1 },
       [Effect.scheduleTimer s.nextId d])

/-- `componentDidUpdate(prevProps)`:
`if (prevProps.visible !== this.props.visible) { this._toggle(); }`.
`s` already holds the new props; `prevVisible` is `prevProps.visible`. -/
def componentDidUpdate (prevVisible : Bool) (s : CompState) : CompState × List Effect :=
  if prevVisible ≠ s.visible then doToggle s else (s, [])

/-- `componentWillUnmount`: `clearTimeout(this._hideTimeout)`. -/
def componentWillUnmount (s : CompState) : CompState × List Effect :=
  (clearTimeoutJs s, [Effect.clearTimer s.hideTimeout])

/-- The action button's `onPress` closure from `render`:
`() => { action.onPress(); onDismiss(); }` — two synchronous calls, in that
order, touching no component state. -/
def actionPressHandler (s : CompState) : CompState × List Effect :=
  (s, [Effect.callActionOnPress, Effect.callOnDismiss])

/-- Host events delivered to the mounted component:

* `render v d` — a re-render with new props `visible = v`, `duration = d`
  (React then calls `componentDidUpdate` with the previous props);
* `animComplete` — the running show animation finished and invokes its
  completion callback;
* `timerFire id` — pending timer `id` fires and the runtime invokes its
  callback (`this.props.onDismiss`);
* `press` — the user presses the action button;
* `unmount` — React unmounts the instance (`componentWillUnmount`). -/
inductive Event where
  | render : Bool → Duration → Event
  | animComplete : Event
  | timerFire : Nat → Event
  | press : Event
  | unmount : Event
deriving DecidableEq, Repr

/-- One host event processed by the component.  Renders, animation callbacks
and presses only reach a mounted instance; a timer can only fire while it is
in the runtime's pending set. -/
def step (s : CompState) (e : Event) : CompState × List Effect :=
  match e with
  | .render v d =>
      if s.mounted then
        let prev := s.visible
        componentDidUpdate prev { s with visible := v, duration := d }
      else (s, [])
  | .animComplete =>
      if s.mounted && s.animInFlight then
        showAnimationCallback { s with animInFlight := false, scaleValue := 1 }
      else (s, [])
  | .timerFire id =>
      if id ∈ s.pending then
        ({ s with pending := s.pending.erase id,
                  timerDismissCount := s.timerDismissCount + 1 },
         [Effect.callOnDismiss])
      else (s, [])
  | .press => if s.mounted then actionPressHandler s else (s, [])
  | .unmount =>
      if s.mounted then
        let p := componentWillUnmount s
        ({ p.1 with mounted := false }, p.2)
      else (s, [])

/-- Mounting the component: `state = { scale: new Animated.Value(0) }`, no
timer, no animation; the source defines no `componentDidMount`, so mounting
triggers no transition whatever the initial props are. -/
def initState (visible₀ : Bool) (duration₀ : Duration) : CompState :=
  { mounted := true
    visible := visible₀
    duration := duration₀
    scaleValue := 0
    animInFlight := false
    hideTimeout := none
    pending := []
    nextId := 0
    timerDismissCount := 0 }

/-- Run a sequence of host events, keeping only the final state. -/
def run (s : CompState) (events : List Event) : CompState :=
  events.foldl (fun t e => (step t e).1) s

/-- Run a sequence of host events, accumulating the emitted effects. -/
def runTrace (s : CompState) : List Event → CompState × List Effect
  | [] => (s, [])
  | e :: es =>
      let p := step s e
      let q := runTrace p.1 es
      (q.1, p.2 ++ q.2)

/-! ## Rendered output

The parts of `render` the claims are about: the `Animated.View` style and the
optional action `Button`. -/

/-- The `action` prop: `{label, onPress}`.  The callback is modelled by the
`callActionOnPress` effect, so only the label is carried here. -/
structure ActionProp where
  label : String
deriving DecidableEq, Repr

/-- JavaScript's `String.prototype.toUpperCase()`, modelled as uppercasing
every character. -/
def toUpperCase (s : String) : String := String.mk (s.data.map Char.toUpper)

/-- The style/content of the rendered view that the claims mention:
`opacity: visible ? 1 : 0`, `transform: [{scale: this.state.scale}]`, and the
button child `{action.label.toUpperCase()}` when `action` is supplied. -/
structure RenderOutput where
  opacity : ℚ
  scaleTransform : ℚ
  actionLabel : Option String
deriving DecidableEq, Repr

/-- `render`, restricted to the observable pieces above. -/
def renderView (visible : Bool) (scaleValue : ℚ) (action : Option ActionProp) :
    RenderOutput :=
  { opacity := if visible then 1 else 0
    scaleTransform := scaleValue
    actionLabel := action.map (fun a => toUpperCase a.label) }

/-! ## Invariants -/

/-- At most one timer is pending in the runtime, and when one is pending its
id is exactly the handle the component holds in `this._hideTimeout`. -/
def timerInv (s : CompState) : Prop :=
  s.pending = [] ∨ ∃ id, s.pending = [id] ∧ s.hideTimeout = some id

/-- Invariant of every reachable state: the pending-timer discipline, a timer
is only scheduled once the show animation has been dealt with, a hidden
snackbar has scale 0 and no running animation, and an unmounted instance has
no pending timer. -/
def Inv (s : CompState) : Prop :=
  timerInv s ∧
  (s.animInFlight = true → s.pending = []) ∧
  (s.visible = false → s.scaleValue = 0 ∧ s.animInFlight = false) ∧
  (s.mounted = false → s.pending = [])

/-- Does this event keep the `duration` prop at the indefinite sentinel?
(Non-render events carry no props.) -/
def keepsIndefinite (e : Event) : Bool :=
  match e with
  | .render _ d => decide (d = Duration.indefinite)
  | _ => true

/-- State invariant for runs whose `duration` prop is always indefinite. -/
def indefInv (s : CompState) : Prop :=
  s.duration = Duration.indefinite ∧ s.pending = [] ∧ s.timerDismissCount = 0

/-- Does this event keep the `visible` prop at `true`? -/
def keepsVisibleTrue (e : Event) : Bool :=
  match e with
  | .render v _ => v
  | _ => true

/-- State invariant for runs of a component mounted with `visible = true`
whose `visible` prop never changes: no transition ever runs. -/
def visInv (s : CompState) : Prop :=
  s.visible = true ∧ s.animInFlight = false ∧ s.pending = [] ∧
  s.scaleValue = 0 ∧ s.timerDismissCount = 0

/-! ## Concrete scenario states used by the witnesses -/

/-- A freshly mounted hidden snackbar with the default (`long`) duration. -/
def exInit : CompState := initState false (Duration.finite 6000)

/-- A hidden snackbar with `duration = 4000` after a render turning
`visible` on: the show animation is in flight. -/
def exShown : CompState :=
  (step (initState false (Duration.finite 4000))
    (Event.render true (Duration.finite 4000))).1

/-- `exShown` after the show animation completed: the auto-dismiss timer
(id 0, 4000 ms) is pending. -/
def exScheduled : CompState := (step exShown Event.animComplete).1

/-- An event sequence whose renders all carry the indefinite duration. -/
def exIndefEvents : List Event :=
  [Event.render true Duration.indefinite, Event.animComplete, Event.unmount]

/-- An event sequence whose renders all leave `visible` at `true`. -/
def exVisEvents : List Event :=
  [Event.render true (Duration.finite 4000), Event.animComplete, Event.press,
   Event.timerFire 0]

/-! ## Helper lemmas about `clearTimeoutJs` -/

@[simp] theorem clearTimeoutJs_mounted (s : CompState) :
    (clearTimeoutJs s).mounted = s.mounted := by
  cases hh : s.hideTimeout <;> simp [clearTimeoutJs, hh]

@[simp] theorem clearTimeoutJs_visible (s : CompState) :
    (clearTimeoutJs s).visible = s.visible := by
  cases hh : s.hideTimeout <;> simp [clearTimeoutJs, hh]

@[simp] theorem clearTimeoutJs_duration (s : CompState) :
    (clearTimeoutJs s).duration = s.duration := by
  cases hh : s.hideTimeout <;> simp [clearTimeoutJs, hh]

@[simp] theorem clearTimeoutJs_scaleValue (s : CompState) :
    (clearTimeoutJs s).scaleValue = s.scaleValue := by
  cases hh : s.hideTimeout <;> simp [clearTimeoutJs, hh]

@[simp] theorem clearTimeoutJs_animInFlight (s : CompState) :
    (clearTimeoutJs s).animInFlight = s.animInFlight := by
  cases hh : s.hideTimeout <;> simp [clearTimeoutJs, hh]

@[simp] theorem clearTimeoutJs_hideTimeout (s : CompState) :
    (clearTimeoutJs s).hideTimeout = s.hideTimeout := by
  cases hh : s.hideTimeout <;> simp [clearTimeoutJs, hh]

@[simp] theorem clearTimeoutJs_nextId (s : CompState) :
    (clearTimeoutJs s).nextId = s.nextId := by
  cases hh : s.hideTimeout <;> simp [clearTimeoutJs, hh]

@[simp] theorem clearTimeoutJs_timerDismissCount (s : CompState) :
    (clearTimeoutJs s).timerDismissCount = s.timerDismissCount := by
  cases hh : s.hideTimeout <;> simp [clearTimeoutJs, hh]

/-- `clearTimeout` empties the runtime's pending set whenever the
pending-timer discipline holds. -/
theorem clearTimeoutJs_pending_nil {s : CompState} (h : timerInv s) :
    (clearTimeoutJs s).pending = [] := by
  rcases h with h | ⟨id, hp, hh⟩
  · cases hh : s.hideTimeout <;> simp [clearTimeoutJs, hh, h]
  · simp [clearTimeoutJs, hh, hp]

/-- `clearTimeout` keeps an empty pending set empty. -/
theorem clearTimeoutJs_pending_of_nil {s : CompState} (h : s.pending = []) :
    (clearTimeoutJs s).pending = [] := by
  cases hh : s.hideTimeout <;> simp [clearTimeoutJs, hh, h]

/-! ## Shapes of the individual steps -/

theorem step_render_unmounted (s : CompState) (v : Bool) (d : Duration)
    (hm : s.mounted = false) : step s (Event.render v d) = (s, []) := by
  simp [step, hm]

theorem step_render_noop (s : CompState) (v : Bool) (d : Duration)
    (hm : s.mounted = true) (hv : s.visible = v) :
    step s (Event.render v d) = ({ s with visible := v, duration := d }, []) := by
  simp [step, hm, componentDidUpdate, hv]

theorem step_render_show (s : CompState) (d : Duration)
    (hm : s.mounted = true) (hv : s.visible = false) :
    step s (Event.render true d) =
      ({ clearTimeoutJs { s with visible := true, duration := d } with
          animInFlight := true },
       [Effect.clearTimer s.hideTimeout,
        Effect.startShowAnim s.scaleValue 1 SNACKBAR_ANIMATION_DURATION]) := by
  simp [step, hm, componentDidUpdate, hv, doToggle, doShow]

theorem step_render_hide (s : CompState) (d : Duration)
    (hm : s.mounted = true) (hv : s.visible = true) :
    step s (Event.render false d) =
      ({ clearTimeoutJs { s with visible := false, duration := d } with
          scaleValue := 0, animInFlight := false },
       [Effect.clearTimer s.hideTimeout, Effect.setScaleValue 0]) := by
  simp [step, hm, componentDidUpdate, hv, doToggle, doHide]

theorem step_animComplete_indefinite (s : CompState)
    (hm : s.mounted = true) (han : s.animInFlight = true)
    (hd : s.duration = Duration.indefinite) :
    step s Event.animComplete =
      ({ s with animInFlight := false, scaleValue := 1 }, []) := by
  simp [step, hm, han, showAnimationCallback, hd]

theorem step_animComplete_finite (s : CompState) (n : Nat)
    (hm : s.mounted = true) (han : s.animInFlight = true)
    (hd : s.duration = Duration.finite n) :
    step s Event.animComplete =
      ({ s with
          animInFlight := false
          scaleValue := 1
          hideTimeout := some s.nextId
          pending := s.nextId :: s.pending
          nextId := s.nextId + 1 },
       [Effect.scheduleTimer s.nextId n]) := by
  simp [step, hm, han, showAnimationCallback, hd]

theorem step_animComplete_idle (s : CompState)
    (han : s.animInFlight = false) :
    step s Event.animComplete = (s, []) := by
  simp [step, han]

theorem step_timerFire_mem (s : CompState) (id : Nat) (hc : id ∈ s.pending) :
    step s (Event.timerFire id) =
      ({ s with
          pending := s.pending.erase id
          timerDismissCount := s.timerDismissCount + 1 },
       [Effect.callOnDismiss]) := by
  simp [step, hc]

theorem step_timerFire_not_mem (s : CompState) (id : Nat)
    (hc : id ∉ s.pending) : step s (Event.timerFire id) = (s, []) := by
  simp [step, hc]

theorem step_press_mounted (s : CompState) (hm : s.mounted = true) :
    step s Event.press = (s, [Effect.callActionOnPress, Effect.callOnDismiss]) := by
  simp [step, hm, actionPressHandler]

theorem step_unmount_mounted (s : CompState) (hm : s.mounted = true) :
    step s Event.unmount =
      ({ clearTimeoutJs s with mounted := false },
       [Effect.clearTimer s.hideTimeout]) := by
  simp [step, hm, componentWillUnmount]

theorem step_unmount_unmounted (s : CompState) (hm : s.mounted = false) :
    step s Event.unmount = (s, []) := by
  simp [step, hm]

/-- An unmounted instance with no pending timer is completely inert: every
event is a no-op and emits no effect. -/
theorem step_quiescent (s : CompState) (e : Event)
    (hm : s.mounted = false) (hp : s.pending = []) : step s e = (s, []) := by
  cases e with
  | render v d => exact step_render_unmounted s v d hm
  | animComplete => simp [step, hm]
  | timerFire id => exact step_timerFire_not_mem s id (by simp [hp])
  | press => simp [step, hm]
  | unmount => exact step_unmount_unmounted s hm

/-! ## Invariant preservation -/

theorem Inv_step (s : CompState) (e : Event) (h : Inv s) : Inv (step s e).1 := by
  obtain ⟨h1, h2, h3, h4⟩ := h
  cases e with
  | render v d =>
    by_cases hm : s.mounted = true
    · by_cases hv : s.visible = v
      · rw [step_render_noop s v d hm hv]
        exact ⟨h1, h2, fun hvf => h3 (hv.trans hvf), h4⟩
      · cases v with
        | true =>
          have hv' : s.visible = false := by
            cases hsv : s.visible
            · rfl
            · exact absurd hsv hv
          rw [step_render_show s d hm hv']
          have hp : (clearTimeoutJs { s with visible := true, duration := d }).pending = [] :=
            clearTimeoutJs_pending_nil h1
          refine ⟨Or.inl hp, fun _ => hp, ?_, fun _ => hp⟩
          intro hvf
          simp at hvf
        | false =>
          have hv' : s.visible = true := by
            cases hsv : s.visible
            · exact absurd hsv hv
            · rfl
          rw [step_render_hide s d hm hv']
          have hp : (clearTimeoutJs { s with visible := false, duration := d }).pending = [] :=
            clearTimeoutJs_pending_nil h1
          exact ⟨Or.inl hp, fun _ => hp, fun _ => ⟨rfl, rfl⟩, fun _ => hp⟩
    · have hm' : s.mounted = false := by
        cases hsm : s.mounted
        · rfl
        · exact absurd hsm hm
      rw [step_render_unmounted s v d hm']
      exact ⟨h1, h2, h3, h4⟩
  | animComplete =>
    by_cases han : s.animInFlight = true
    · by_cases hm : s.mounted = true
      · have hvt : s.visible = true := by
          cases hsv : s.visible
          · exact absurd ((h3 hsv).2) (by simp [han])
          · rfl
        have hp : s.pending = [] := h2 han
        cases hd : s.duration with
        | indefinite =>
          rw [step_animComplete_indefinite s hm han hd]
          refine ⟨h1, ?_, ?_, ?_⟩
          · intro hh; simp at hh
          · intro hvf; rw [hvt] at hvf; simp at hvf
          · intro hmf; rw [hm] at hmf; simp at hmf
        | finite n =>
          rw [step_animComplete_finite s n hm han hd]
          refine ⟨Or.inr ⟨s.nextId, by simp [hp], rfl⟩, ?_, ?_, ?_⟩
          · intro hh; simp at hh
          · intro hvf; rw [hvt] at hvf; simp at hvf
          · intro hmf; rw [hm] at hmf; simp at hmf
      · have hm' : ¬(s.mounted && s.animInFlight) = true := by
          cases hsm : s.mounted
          · simp
          · exact absurd hsm hm
        simp only [step, hm', if_false]
        exact ⟨h1, h2, h3, h4⟩
    · have han' : s.animInFlight = false := by
        cases hsa : s.animInFlight
        · rfl
        · exact absurd hsa han
      rw [step_animComplete_idle s han']
      exact ⟨h1, h2, h3, h4⟩
  | timerFire id =>
    by_cases hc : id ∈ s.pending
    · rcases h1 with hp | ⟨id', hp, hh⟩
      · rw [hp] at hc; simp at hc
      · have hid : id = id' := by rw [hp] at hc; simpa using hc
        subst hid
        rw [step_timerFire_mem s id hc]
        have hpe : (s.pending.erase id) = [] := by simp [hp]
        refine ⟨Or.inl hpe, fun _ => hpe, ?_, fun _ => hpe⟩
        intro hvf
        exact h3 hvf
    · rw [step_timerFire_not_mem s id hc]
      exact ⟨h1, h2, h3, h4⟩
  | press =>
    by_cases hm : s.mounted = true
    · rw [step_press_mounted s hm]
      exact ⟨h1, h2, h3, h4⟩
    · have hm' : s.mounted = false := by
        cases hsm : s.mounted
        · rfl
        · exact absurd hsm hm
      simp only [step, hm', Bool.false_eq_true, if_false]
      exact ⟨h1, h2, h3, h4⟩
  | unmount =>
    by_cases hm : s.mounted = true
    · rw [step_unmount_mounted s hm]
      have hp : (clearTimeoutJs s).pending = [] := clearTimeoutJs_pending_nil h1
      refine ⟨Or.inl hp, fun _ => hp, ?_, fun _ => hp⟩
      intro hvf
      simp only [clearTimeoutJs_visible] at hvf
      constructor
      · simpa using (h3 hvf).1
      · simpa using (h3 hvf).2
    · have hm' : s.mounted = false := by
        cases hsm : s.mounted
        · rfl
        · exact absurd hsm hm
      rw [step_unmount_unmounted s hm']
      exact ⟨h1, h2, h3, h4⟩

/-- The invariant holds in every freshly mounted state. -/
theorem Inv_initState (visible₀ : Bool) (duration₀ : Duration) :
    Inv (initState visible₀ duration₀) := by
  refine ⟨Or.inl rfl, fun _ => rfl, fun _ => ⟨rfl, rfl⟩, fun _ => rfl⟩

/-- The invariant is preserved along any run. -/
theorem Inv_run (events : List Event) (s : CompState) (h : Inv s) :
    Inv (run s events) := by
  induction events generalizing s with
  | nil => exact h
  | cons e es ih => exact ih (step s e).1 (Inv_step s e h)

/-- Every reachable state satisfies the invariant. -/
theorem Inv_reachable (visible₀ : Bool) (duration₀ : Duration)
    (events : List Event) : Inv (run (initState visible₀ duration₀) events) :=
  Inv_run events _ (Inv_initState visible₀ duration₀)

/-! ## Run lemmas -/

theorem bool_eq_false {b : Bool} (h : ¬ b = true) : b = false := by
  cases b
  · rfl
  · exact absurd rfl h

theorem bool_eq_true {b : Bool} (h : ¬ b = false) : b = true := by
  cases b
  · exact absurd rfl h
  · rfl

theorem step_press_unmounted (s : CompState) (hm : s.mounted = false) :
    step s Event.press = (s, []) := by
  simp [step, hm]

theorem run_cons (s : CompState) (e : Event) (es : List Event) :
    run s (e :: es) = run (step s e).1 es := rfl

theorem runTrace_fst (events : List Event) (s : CompState) :
    (runTrace s events).1 = run s events := by
  induction events generalizing s with
  | nil => rfl
  | cons e es ih => simpa [runTrace, run_cons] using ih (step s e).1

/-- A quiescent (unmounted, no pending timer) instance stays put and emits
nothing, whatever events arrive. -/
theorem runTrace_quiescent (events : List Event) (s : CompState)
    (hm : s.mounted = false) (hp : s.pending = []) :
    runTrace s events = (s, []) := by
  induction events with
  | nil => rfl
  | cons e es ih => simp [runTrace, step_quiescent s e hm hp, ih]

theorem run_quiescent (events : List Event) (s : CompState)
    (hm : s.mounted = false) (hp : s.pending = []) :
    run s events = s := by
  have h := runTrace_quiescent events s hm hp
  have h2 := runTrace_fst events s
  rw [h] at h2
  exact h2.symm

/-! ## Runs with the duration prop always indefinite -/

theorem indefInv_step (s : CompState) (e : Event) (h : indefInv s)
    (he : keepsIndefinite e = true) :
    indefInv (step s e).1 ∧ ∀ eff ∈ (step s e).2, eff.isSchedule = false := by
  obtain ⟨h1, h2, h3⟩ := h
  cases e with
  | render v d =>
    have hd : d = Duration.indefinite := by simpa [keepsIndefinite] using he
    subst hd
    by_cases hm : s.mounted = true
    · by_cases hv : s.visible = v
      · rw [step_render_noop s v _ hm hv]
        exact ⟨⟨rfl, h2, h3⟩, by simp⟩
      · cases v with
        | true =>
          rw [step_render_show s _ hm (bool_eq_false hv)]
          refine ⟨⟨by simp, clearTimeoutJs_pending_of_nil h2, by simpa using h3⟩, ?_⟩
          rintro eff hmem
          simp only [List.mem_cons, List.not_mem_nil, or_false] at hmem
          rcases hmem with rfl | rfl <;> rfl
        | false =>
          rw [step_render_hide s _ hm (bool_eq_true hv)]
          refine ⟨⟨by simp, clearTimeoutJs_pending_of_nil h2, by simpa using h3⟩, ?_⟩
          rintro eff hmem
          simp only [List.mem_cons, List.not_mem_nil, or_false] at hmem
          rcases hmem with rfl | rfl <;> rfl
    · rw [step_render_unmounted s v _ (bool_eq_false hm)]
      exact ⟨⟨h1, h2, h3⟩, by simp⟩
  | animComplete =>
    by_cases hg : (s.mounted && s.animInFlight) = true
    · have hm : s.mounted = true := by
        rcases Bool.and_eq_true_iff.mp hg with ⟨hm, _⟩; exact hm
      have han : s.animInFlight = true := by
        rcases Bool.and_eq_true_iff.mp hg with ⟨_, han⟩; exact han
      rw [step_animComplete_indefinite s hm han h1]
      exact ⟨⟨h1, h2, h3⟩, by simp⟩
    · have hq : step s Event.animComplete = (s, []) := by simp [step, hg]
      rw [hq]
      exact ⟨⟨h1, h2, h3⟩, by simp⟩
  | timerFire id =>
    rw [step_timerFire_not_mem s id (by simp [h2])]
    exact ⟨⟨h1, h2, h3⟩, by simp⟩
  | press =>
    by_cases hm : s.mounted = true
    · rw [step_press_mounted s hm]
      refine ⟨⟨h1, h2, h3⟩, ?_⟩
      rintro eff hmem
      simp only [List.mem_cons, List.not_mem_nil, or_false] at hmem
      rcases hmem with rfl | rfl <;> rfl
    · rw [step_press_unmounted s (bool_eq_false hm)]
      exact ⟨⟨h1, h2, h3⟩, by simp⟩
  | unmount =>
    by_cases hm : s.mounted = true
    · rw [step_unmount_mounted s hm]
      refine ⟨⟨by simpa using h1, clearTimeoutJs_pending_of_nil h2, by simpa using h3⟩, ?_⟩
      rintro eff hmem
      simp only [List.mem_cons, List.not_mem_nil, or_false] at hmem
      rcases hmem with rfl
      rfl
    · rw [step_unmount_unmounted s (bool_eq_false hm)]
      exact ⟨⟨h1, h2, h3⟩, by simp⟩

theorem indefInv_runTrace (events : List Event) (s : CompState)
    (h : indefInv s) (hev : ∀ e ∈ events, keepsIndefinite e = true) :
    indefInv (runTrace s events).1 ∧
    ∀ eff ∈ (runTrace s events).2, eff.isSchedule = false := by
  induction events generalizing s with
  | nil => exact ⟨h, by simp [runTrace]⟩
  | cons e es ih =>
    obtain ⟨hs1, hs2⟩ := indefInv_step s e h (hev e (List.mem_cons_self e es))
    obtain ⟨ht1, ht2⟩ := ih (step s e).1 hs1 (fun e' he' => hev e' (List.mem_cons_of_mem e he'))
    refine ⟨by simpa [runTrace] using ht1, ?_⟩
    intro eff hmem
    simp only [runTrace, List.mem_append] at hmem
    rcases hmem with hmem | hmem
    · exact hs2 eff hmem
    · exact ht2 eff hmem

/-! ## Runs with the visible prop always true -/

theorem visInv_step (s : CompState) (e : Event) (h : visInv s)
    (he : keepsVisibleTrue e = true) :
    visInv (step s e).1 ∧
    ∀ eff ∈ (step s e).2, eff.isSchedule = false ∧ eff.isStartAnim = false := by
  obtain ⟨h1, h2, h3, h4, h5⟩ := h
  cases e with
  | render v d =>
    have hv : v = true := by simpa [keepsVisibleTrue] using he
    subst hv
    by_cases hm : s.mounted = true
    · rw [step_render_noop s true d hm h1]
      exact ⟨⟨rfl, h2, h3, h4, h5⟩, by simp⟩
    · rw [step_render_unmounted s true d (bool_eq_false hm)]
      exact ⟨⟨h1, h2, h3, h4, h5⟩, by simp⟩
  | animComplete =>
    rw [step_animComplete_idle s h2]
    exact ⟨⟨h1, h2, h3, h4, h5⟩, by simp⟩
  | timerFire id =>
    rw [step_timerFire_not_mem s id (by simp [h3])]
    exact ⟨⟨h1, h2, h3, h4, h5⟩, by simp⟩
  | press =>
    by_cases hm : s.mounted = true
    · rw [step_press_mounted s hm]
      refine ⟨⟨h1, h2, h3, h4, h5⟩, ?_⟩
      rintro eff hmem
      simp only [List.mem_cons, List.not_mem_nil, or_false] at hmem
      rcases hmem with rfl | rfl <;> exact ⟨rfl, rfl⟩
    · rw [step_press_unmounted s (bool_eq_false hm)]
      exact ⟨⟨h1, h2, h3, h4, h5⟩, by simp⟩
  | unmount =>
    by_cases hm : s.mounted = true
    · rw [step_unmount_mounted s hm]
      refine ⟨⟨by simpa using h1, by simpa using h2, clearTimeoutJs_pending_of_nil h3,
        by simpa using h4, by simpa using h5⟩, ?_⟩
      rintro eff hmem
      simp only [List.mem_cons, List.not_mem_nil, or_false] at hmem
      rcases hmem with rfl
      exact ⟨rfl, rfl⟩
    · rw [step_unmount_unmounted s (bool_eq_false hm)]
      exact ⟨⟨h1, h2, h3, h4, h5⟩, by simp⟩

theorem visInv_runTrace (events : List Event) (s : CompState)
    (h : visInv s) (hev : ∀ e ∈ events, keepsVisibleTrue e = true) :
    visInv (runTrace s events).1 ∧
    ∀ eff ∈ (runTrace s events).2, eff.isSchedule = false ∧ eff.isStartAnim = false := by
  induction events generalizing s with
  | nil => exact ⟨h, by simp [runTrace]⟩
  | cons e es ih =>
    obtain ⟨hs1, hs2⟩ := visInv_step s e h (hev e (List.mem_cons_self e es))
    obtain ⟨ht1, ht2⟩ := ih (step s e).1 hs1 (fun e' he' => hev e' (List.mem_cons_of_mem e he'))
    refine ⟨by simpa [runTrace] using ht1, ?_⟩
    intro eff hmem
    simp only [runTrace, List.mem_append] at hmem
    rcases hmem with hmem | hmem
    · exact hs2 eff hmem
    · exact ht2 eff hmem

/-! ## Claims -/

/-- C1: on a `visible` false→true transition in any reachable state, the
component first cancels any pending auto-dismiss timer
(`clearTimeout(this._hideTimeout)` is the first emitted effect, and the
pending set is empty afterwards) and then starts the show animation of the
scale value from 0 to 1 over 200 ms; when the show animation completes, if
the `duration` prop is not the indefinite sentinel, a timer of length
`duration` is scheduled and its id stored in `_hideTimeout`; when that timer
fires it invokes `onDismiss` exactly once — it leaves the pending set, so a
repeat firing of the same timer is a no-op. -/
theorem C1_show_transition_schedules_dismiss
    (v₀ : Bool) (d₀ : Duration) (events : List Event) (s : CompState)
    (d : Duration) (t u : CompState) (n id : Nat)
    (hs : s = run (initState v₀ d₀) events)
    (hm : s.mounted = true) (hv : s.visible = false)
    (htm : t.mounted = true) (hta : t.animInFlight = true)
    (htd : t.duration = Duration.finite n)
    (hu : u.pending = [id]) :
    (step s (Event.render true d)).2 =
      [Effect.clearTimer s.hideTimeout, Effect.startShowAnim 0 1 200] ∧
    (step s (Event.render true d)).1.pending = [] ∧
    (step s (Event.render true d)).1.animInFlight = true ∧
    (step t Event.animComplete).2 = [Effect.scheduleTimer t.nextId n] ∧
    (step t Event.animComplete).1.hideTimeout = some t.nextId ∧
    (step t Event.animComplete).1.pending = t.nextId :: t.pending ∧
    (step u (Event.timerFire id)).2 = [Effect.callOnDismiss] ∧
    (step u (Event.timerFire id)).1.timerDismissCount = u.timerDismissCount + 1 ∧
    (step u (Event.timerFire id)).1.pending = [] ∧
    step (step u (Event.timerFire id)).1 (Event.timerFire id) =
      ((step u (Event.timerFire id)).1, []) := by
  have hInv : Inv s := by rw [hs]; exact Inv_reachable v₀ d₀ events
  have hsc : s.scaleValue = 0 := (hInv.2.2.1 hv).1
  have hmem : id ∈ u.pending := by rw [hu]; exact List.mem_singleton_self id
  rw [step_render_show s d hm hv, step_animComplete_finite t n htm hta htd,
    step_timerFire_mem u id hmem]
  refine ⟨by rw [hsc]; rfl, clearTimeoutJs_pending_nil hInv.1, rfl, rfl, rfl, rfl, rfl, rfl,
    ?_, ?_⟩
  · show u.pending.erase id = []
    rw [hu]
    simp
  · refine step_timerFire_not_mem _ id ?_
    show id ∉ u.pending.erase id
    rw [hu]
    simp

/-- C2: in every reachable state at most one auto-dismiss timer is pending,
and every show or hide transition (a render changing the `visible` prop on a
mounted instance) emits the timer cancellation as its very first effect. -/
theorem C2_at_most_one_timer
    (v₀ : Bool) (d₀ : Duration) (events : List Event) (s t : CompState)
    (v : Bool) (d : Duration)
    (hs : s = run (initState v₀ d₀) events)
    (hm : t.mounted = true) (hv : t.visible ≠ v) :
    s.pending.length ≤ 1 ∧
    (step t (Event.render v d)).2.head? = some (Effect.clearTimer t.hideTimeout) := by
  constructor
  · have hInv : Inv s := by rw [hs]; exact Inv_reachable v₀ d₀ events
    rcases hInv.1 with hp | ⟨id, hp, _⟩
    · rw [hp]; simp
    · rw [hp]; simp
  · cases v with
    | true =>
      rw [step_render_show t d hm (bool_eq_false hv)]
      rfl
    | false =>
      rw [step_render_hide t d hm (bool_eq_true hv)]
      rfl

/-- C3: on a `visible` true→false transition in any reachable state, the
component cancels any pending auto-dismiss timer (pending set empty
afterwards) and sets the scale value to 0 immediately — the emitted effects
are exactly the cancel and the `setValue(0)`, and no animation is running
afterwards. -/
theorem C3_hide_transition_immediate
    (v₀ : Bool) (d₀ : Duration) (events : List Event) (s : CompState) (d : Duration)
    (hs : s = run (initState v₀ d₀) events)
    (hm : s.mounted = true) (hv : s.visible = true) :
    (step s (Event.render false d)).2 =
      [Effect.clearTimer s.hideTimeout, Effect.setScaleValue 0] ∧
    (step s (Event.render false d)).1.pending = [] ∧
    (step s (Event.render false d)).1.scaleValue = 0 ∧
    (step s (Event.render false d)).1.animInFlight = false := by
  have hInv : Inv s := by rw [hs]; exact Inv_reachable v₀ d₀ events
  rw [step_render_hide s d hm hv]
  exact ⟨rfl, clearTimeoutJs_pending_nil hInv.1, rfl, rfl⟩

/-- C4: pressing the action button while the snackbar is visible invokes
`action.onPress()` and then `onDismiss()`, synchronously in that order,
exactly once each, and leaves the component state (in particular the scale
value) completely unchanged. -/
theorem C4_action_press_calls_in_order (s : CompState)
    (hm : s.mounted = true) (_hv : s.visible = true) :
    step s Event.press = (s, [Effect.callActionOnPress, Effect.callOnDismiss]) ∧
    (step s Event.press).1.scaleValue = s.scaleValue ∧
    (step s Event.press).2.count Effect.callActionOnPress = 1 ∧
    (step s Event.press).2.count Effect.callOnDismiss = 1 := by
  rw [step_press_mounted s hm]
  refine ⟨rfl, rfl, ?_, ?_⟩
  · show List.count Effect.callActionOnPress
      [Effect.callActionOnPress, Effect.callOnDismiss] = 1
    decide
  · show List.count Effect.callOnDismiss
      [Effect.callActionOnPress, Effect.callOnDismiss] = 1
    decide

/-- C5: unmounting, in any reachable state, cancels any pending auto-dismiss
timer; afterwards the pending set is empty, all further events are no-ops
that emit no effects, and the count of timer-invoked `onDismiss` calls never
changes — the timer callback is never invoked after unmount. -/
theorem C5_unmount_cancels_timer
    (v₀ : Bool) (d₀ : Duration) (events events' : List Event) (s : CompState)
    (hs : s = run (initState v₀ d₀) events) :
    (step s Event.unmount).1.pending = [] ∧
    (step s Event.unmount).1.mounted = false ∧
    run (step s Event.unmount).1 events' = (step s Event.unmount).1 ∧
    (runTrace (step s Event.unmount).1 events').2 = [] ∧
    (run (step s Event.unmount).1 events').timerDismissCount = s.timerDismissCount := by
  have hInv : Inv s := by rw [hs]; exact Inv_reachable v₀ d₀ events
  by_cases hm : s.mounted = true
  · rw [step_unmount_mounted s hm]
    have hp : (clearTimeoutJs s).pending = [] := clearTimeoutJs_pending_nil hInv.1
    have hq := run_quiescent events' { clearTimeoutJs s with mounted := false } rfl hp
    refine ⟨hp, rfl, hq, ?_, ?_⟩
    · rw [runTrace_quiescent events' { clearTimeoutJs s with mounted := false } rfl hp]
    · rw [hq]
      simp
  · have hm' : s.mounted = false := bool_eq_false hm
    rw [step_unmount_unmounted s hm']
    have hp : s.pending = [] := hInv.2.2.2 hm'
    have hq := run_quiescent events' s hm' hp
    refine ⟨hp, hm', hq, ?_, by rw [hq]⟩
    rw [runTrace_quiescent events' s hm' hp]

/-- C6: when the `duration` prop is the indefinite sentinel at
animation-completion time, the completion callback schedules nothing and
changes no timer state; moreover along any run whose `duration` prop is
always indefinite, no `setTimeout` effect is ever emitted, the pending set
stays empty and `onDismiss` is never invoked by a timer. -/
theorem C6_indefinite_never_schedules
    (t : CompState) (v₀ : Bool) (events : List Event)
    (htd : t.duration = Duration.indefinite)
    (hev : events.all keepsIndefinite = true) :
    (step t Event.animComplete).2 = [] ∧
    (step t Event.animComplete).1.pending = t.pending ∧
    (step t Event.animComplete).1.hideTimeout = t.hideTimeout ∧
    (runTrace (initState v₀ Duration.indefinite) events).2.all
      (fun eff => !eff.isSchedule) = true ∧
    (run (initState v₀ Duration.indefinite) events).pending = [] ∧
    (run (initState v₀ Duration.indefinite) events).timerDismissCount = 0 := by
  have hev' : ∀ e ∈ events, keepsIndefinite e = true := List.all_eq_true.mp hev
  have hbase : indefInv (initState v₀ Duration.indefinite) := ⟨rfl, rfl, rfl⟩
  obtain ⟨⟨i1, i2, i3⟩, htr⟩ := indefInv_runTrace events _ hbase hev'
  have hstep : (step t Event.animComplete).2 = [] ∧
      (step t Event.animComplete).1.pending = t.pending ∧
      (step t Event.animComplete).1.hideTimeout = t.hideTimeout := by
    by_cases hg : (t.mounted && t.animInFlight) = true
    · obtain ⟨hm, han⟩ := Bool.and_eq_true_iff.mp hg
      rw [step_animComplete_indefinite t hm han htd]
      exact ⟨rfl, rfl, rfl⟩
    · have hq : step t Event.animComplete = (t, []) := by simp [step, hg]
      rw [hq]
      exact ⟨rfl, rfl, rfl⟩
  refine ⟨hstep.1, hstep.2.1, hstep.2.2, ?_, ?_, ?_⟩
  · exact List.all_eq_true.mpr (fun eff hmem => by rw [htr eff hmem]; rfl)
  · rw [← runTrace_fst]; exact i2
  · rw [← runTrace_fst]; exact i3

/-- C7: a re-render that leaves the `visible` prop unchanged triggers no
transition: no effect is emitted, and the animation and timer state (pending
set, held handle, running animation, scale value, fresh-id counter,
timer-dismiss count) is identical before and after. -/
theorem C7_unchanged_visible_is_noop (s : CompState) (v : Bool) (d : Duration)
    (hv : s.visible = v) :
    (step s (Event.render v d)).2 = [] ∧
    (step s (Event.render v d)).1.pending = s.pending ∧
    (step s (Event.render v d)).1.hideTimeout = s.hideTimeout ∧
    (step s (Event.render v d)).1.animInFlight = s.animInFlight ∧
    (step s (Event.render v d)).1.scaleValue = s.scaleValue ∧
    (step s (Event.render v d)).1.nextId = s.nextId ∧
    (step s (Event.render v d)).1.timerDismissCount = s.timerDismissCount := by
  by_cases hm : s.mounted = true
  · rw [step_render_noop s v d hm hv]
    exact ⟨rfl, rfl, rfl, rfl, rfl, rfl, rfl⟩
  · rw [step_render_unmounted s v d (bool_eq_false hm)]
    exact ⟨rfl, rfl, rfl, rfl, rfl, rfl, rfl⟩

/-- C8 counterexample: with the snackbar visible and the animated progress
value at 0 (exactly the situation right after mounting with `visible = true`,
or at the very start of the show animation), the rendered opacity is 1 while
the progress value is 0, so the opacity is not driven by the animated
progress value — the source sets `opacity: visible ? 1 : 0`. -/
theorem C8_counterexample_opacity_not_progress :
    (renderView true 0 none).opacity = 1 ∧
    (renderView true 0 none).scaleTransform = 0 ∧
    (renderView true 0 none).opacity ≠ (renderView true 0 none).scaleTransform := by
  refine ⟨rfl, rfl, ?_⟩
  simp [renderView]

/-- C8 amended: in every render, the animated progress value drives only the
scale transform; the opacity is driven directly by the `visible` prop
(`visible ? 1 : 0`), so the view renders with zero opacity exactly when
hidden. -/
theorem C8_amended_opacity_from_visible (v : Bool) (q : ℚ) (a : Option ActionProp) :
    (renderView v q a).scaleTransform = q ∧
    (renderView v q a).opacity = (if v = true then 1 else 0) ∧
    ((renderView v q a).opacity = 0 ↔ v = false) := by
  cases v <;> simp [renderView]

/-- C9: a component mounted with `visible = true` starts with no animation
and no timer, and as long as the `visible` prop never changes, no show or
hide transition ever runs: no animation-start and no `setTimeout` effect is
ever emitted, the pending set stays empty, the scale value stays 0, and
`onDismiss` is never invoked by a timer — transitions happen only in
`componentDidUpdate` when `visible` changes, never at mount. -/
theorem C9_mounted_visible_never_autodismisses
    (d₀ : Duration) (events : List Event)
    (hev : events.all keepsVisibleTrue = true) :
    (initState true d₀).animInFlight = false ∧
    (initState true d₀).pending = [] ∧
    (runTrace (initState true d₀) events).2.all
      (fun eff => !eff.isSchedule && !eff.isStartAnim) = true ∧
    (run (initState true d₀) events).pending = [] ∧
    (run (initState true d₀) events).timerDismissCount = 0 ∧
    (run (initState true d₀) events).scaleValue = 0 ∧
    (run (initState true d₀) events).animInFlight = false := by
  have hev' : ∀ e ∈ events, keepsVisibleTrue e = true := List.all_eq_true.mp hev
  have hbase : visInv (initState true d₀) := ⟨rfl, rfl, rfl, rfl, rfl⟩
  obtain ⟨⟨i1, i2, i3, i4, i5⟩, htr⟩ := visInv_runTrace events _ hbase hev'
  refine ⟨rfl, rfl, ?_, ?_, ?_, ?_, ?_⟩
  · refine List.all_eq_true.mpr (fun eff hmem => ?_)
    obtain ⟨hx, hy⟩ := htr eff hmem
    rw [hx, hy]
    rfl
  · rw [← runTrace_fst]; exact i3
  · rw [← runTrace_fst]; exact i5
  · rw [← runTrace_fst]; exact i4
  · rw [← runTrace_fst]; exact i2

/-- C10: whenever an `action` prop is supplied, the label rendered on the
action button is `action.label.toUpperCase()`, not the verbatim label — for
example the label "Undo" renders as "UNDO". -/
theorem C10_action_label_uppercased (v : Bool) (q : ℚ) (a : ActionProp) :
    (renderView v q (some a)).actionLabel = some (toUpperCase a.label) ∧
    (renderView true 1 (some ⟨"Undo"⟩)).actionLabel = some "UNDO" ∧
    (renderView true 1 (some ⟨"Undo"⟩)).actionLabel ≠ some "Undo" := by
  refine ⟨rfl, by decide, by decide⟩

/-! ## Witnesses -/

/-- Witness for C1: mount hidden, turn `visible` on with `duration = 4000`,
let the show animation complete, let the timer fire. -/
theorem C1_witness :
    (step exInit (Event.render true (Duration.finite 4000))).2 =
      [Effect.clearTimer exInit.hideTimeout, Effect.startShowAnim 0 1 200] ∧
    (step exInit (Event.render true (Duration.finite 4000))).1.pending = [] ∧
    (step exInit (Event.render true (Duration.finite 4000))).1.animInFlight = true ∧
    (step exShown Event.animComplete).2 = [Effect.scheduleTimer exShown.nextId 4000] ∧
    (step exShown Event.animComplete).1.hideTimeout = some exShown.nextId ∧
    (step exShown Event.animComplete).1.pending = exShown.nextId :: exShown.pending ∧
    (step exScheduled (Event.timerFire 0)).2 = [Effect.callOnDismiss] ∧
    (step exScheduled (Event.timerFire 0)).1.timerDismissCount =
      exScheduled.timerDismissCount + 1 ∧
    (step exScheduled (Event.timerFire 0)).1.pending = [] ∧
    step (step exScheduled (Event.timerFire 0)).1 (Event.timerFire 0) =
      ((step exScheduled (Event.timerFire 0)).1, []) :=
  C1_show_transition_schedules_dismiss false (Duration.finite 6000) [] exInit
    (Duration.finite 4000) exShown exScheduled 4000 0 rfl rfl rfl
    (by decide) (by decide) (by decide) (by decide)

/-- Witness for C2: a reachable state with one scheduled timer, and a
false→true transition on a fresh instance. -/
theorem C2_witness :
    (run (initState false (Duration.finite 4000))
        [Event.render true (Duration.finite 4000), Event.animComplete]).pending.length ≤ 1 ∧
    (step exInit (Event.render true (Duration.finite 6000))).2.head? =
      some (Effect.clearTimer exInit.hideTimeout) :=
  C2_at_most_one_timer false (Duration.finite 4000)
    [Event.render true (Duration.finite 4000), Event.animComplete]
    (run (initState false (Duration.finite 4000))
      [Event.render true (Duration.finite 4000), Event.animComplete])
    exInit true (Duration.finite 6000) rfl rfl (by decide)

/-- Witness for C3: hiding the snackbar while its auto-dismiss timer is
pending. -/
theorem C3_witness :
    (step exScheduled (Event.render false (Duration.finite 4000))).2 =
      [Effect.clearTimer exScheduled.hideTimeout, Effect.setScaleValue 0] ∧
    (step exScheduled (Event.render false (Duration.finite 4000))).1.pending = [] ∧
    (step exScheduled (Event.render false (Duration.finite 4000))).1.scaleValue = 0 ∧
    (step exScheduled (Event.render false (Duration.finite 4000))).1.animInFlight = false :=
  C3_hide_transition_immediate false (Duration.finite 4000)
    [Event.render true (Duration.finite 4000), Event.animComplete] exScheduled
    (Duration.finite 4000) rfl (by decide) (by decide)

/-- Witness for C4: pressing the action button on a visible snackbar. -/
theorem C4_witness :
    step exShown Event.press =
      (exShown, [Effect.callActionOnPress, Effect.callOnDismiss]) ∧
    (step exShown Event.press).1.scaleValue = exShown.scaleValue ∧
    (step exShown Event.press).2.count Effect.callActionOnPress = 1 ∧
    (step exShown Event.press).2.count Effect.callOnDismiss = 1 :=
  C4_action_press_calls_in_order exShown (by decide) (by decide)

/-- Witness for C5: unmounting while the auto-dismiss timer is pending, then
letting the (cancelled) timer try to fire. -/
theorem C5_witness :
    (step exScheduled Event.unmount).1.pending = [] ∧
    (step exScheduled Event.unmount).1.mounted = false ∧
    run (step exScheduled Event.unmount).1 [Event.timerFire 0, Event.press] =
      (step exScheduled Event.unmount).1 ∧
    (runTrace (step exScheduled Event.unmount).1 [Event.timerFire 0, Event.press]).2 = [] ∧
    (run (step exScheduled Event.unmount).1
        [Event.timerFire 0, Event.press]).timerDismissCount =
      exScheduled.timerDismissCount :=
  C5_unmount_cancels_timer false (Duration.finite 4000)
    [Event.render true (Duration.finite 4000), Event.animComplete]
    [Event.timerFire 0, Event.press] exScheduled rfl

/-- Witness for C6: an indefinite-duration snackbar shown and its animation
completed — nothing is ever scheduled. -/
theorem C6_witness :
    (step (initState true Duration.indefinite) Event.animComplete).2 = [] ∧
    (step (initState true Duration.indefinite) Event.animComplete).1.pending =
      (initState true Duration.indefinite).pending ∧
    (step (initState true Duration.indefinite) Event.animComplete).1.hideTimeout =
      (initState true Duration.indefinite).hideTimeout ∧
    (runTrace (initState false Duration.indefinite) exIndefEvents).2.all
      (fun eff => !eff.isSchedule) = true ∧
    (run (initState false Duration.indefinite) exIndefEvents).pending = [] ∧
    (run (initState false Duration.indefinite) exIndefEvents).timerDismissCount = 0 :=
  C6_indefinite_never_schedules (initState true Duration.indefinite) false
    exIndefEvents rfl (by decide)

/-- Witness for C7: a re-render of a visible snackbar with `visible` still
`true` (only `duration` changes). -/
theorem C7_witness :
    (step exShown (Event.render true (Duration.finite 6000))).2 = [] ∧
    (step exShown (Event.render true (Duration.finite 6000))).1.pending =
      exShown.pending ∧
    (step exShown (Event.render true (Duration.finite 6000))).1.hideTimeout =
      exShown.hideTimeout ∧
    (step exShown (Event.render true (Duration.finite 6000))).1.animInFlight =
      exShown.animInFlight ∧
    (step exShown (Event.render true (Duration.finite 6000))).1.scaleValue =
      exShown.scaleValue ∧
    (step exShown (Event.render true (Duration.finite 6000))).1.nextId =
      exShown.nextId ∧
    (step exShown (Event.render true (Duration.finite 6000))).1.timerDismissCount =
      exShown.timerDismissCount :=
  C7_unchanged_visible_is_noop exShown true (Duration.finite 6000) (by decide)

/-- Witness for C9: a snackbar mounted already visible with a finite
duration, re-rendered, with stray animation/timer events — nothing is ever
animated or scheduled. -/
theorem C9_witness :
    (initState true (Duration.finite 4000)).animInFlight = false ∧
    (initState true (Duration.finite 4000)).pending = [] ∧
    (runTrace (initState true (Duration.finite 4000)) exVisEvents).2.all
      (fun eff => !eff.isSchedule && !eff.isStartAnim) = true ∧
    (run (initState true (Duration.finite 4000)) exVisEvents).pending = [] ∧
    (run (initState true (Duration.finite 4000)) exVisEvents).timerDismissCount = 0 ∧
    (run (initState true (Duration.finite 4000)) exVisEvents).scaleValue = 0 ∧
    (run (initState true (Duration.finite 4000)) exVisEvents).animInFlight = false :=
  C9_mounted_visible_never_autodismisses (Duration.finite 4000) exVisEvents (by decide)

end Snackbar
